import Mathlib

/-!
Verification development for the schema-to-class registration and lazy
type-resolution core of the nestjs-zod repository
(packages/nestjs-zod/src/dto.ts).

Modelling conventions:
* A zod schema instance is identified by a natural number `sid`; a schema
  environment `ZEnv : Nat -> ZodDef` gives every instance its `_def` record.
  JavaScript reference equality on schema instances (`===`, WeakMap keying)
  is modelled as equality of the identifying numbers.
* JS `Map` / `WeakMap` objects are modelled as association lists with
  JS `Map` semantics: `set` overwrites in place keeping the original
  insertion position, otherwise appends; iteration order is list order.
* Classes are identified by natural numbers; the statics that the source
  reads or writes (`schema`, `isZodDto`) are carried in `ClassStatics`.
* Recursion of `getGraphQLFieldType` follows ids through the environment,
  so it is fuelled; fuel can only run out on a cyclic environment, which a
  real (finite, tree-shaped) zod schema never produces.  On exhausted fuel
  the model returns the string fallback.
-/

/-- The literal value carried by a `ZodLiteral` node: a string, number or
boolean, mirroring the JS values relevant to the enum synthesizer. -/
inductive LitVal where
  | s (v : String)
  | n (v : Int)
  | b (v : Bool)
deriving DecidableEq, Repr

/-- The key under which a literal value appears when used as an enum member
key (JS object keys are strings; numbers and booleans are stringified). -/
def litKey : LitVal → String
  | .s v => v
  | .n v => toString v
  | .b v => toString v

/-- The primitive kind tag of a literal value (typeof in JS). -/
def litKindName : LitVal → String
  | .s _ => "string"
  | .n _ => "number"
  | .b _ => "boolean"

/-- The `_def` record of a zod schema node as duck-typed by dto.ts:
`_def.typeName`, `_def.innerType`, `_def.type` (here `elemType`),
`_def.shape()` (field name to child schema instance), `_def.values`,
`_def.options`, `_def.value` (here `litValue`) and `_def.description`. -/
structure ZodDef where
  typeName : String
  innerType : Option Nat := none
  elemType : Option Nat := none
  shape : List (String × Nat) := []
  values : List String := []
  options : List Nat := []
  litValue : Option LitVal := none
  description : Option String := none
deriving DecidableEq, Repr

/-- A schema environment: the `_def` record of every schema instance id. -/
abbrev ZEnv : Type := Nat → ZodDef

/-- Association-list lookup with JS `Map.get` semantics. -/
def alistGet {α β : Type} [BEq α] (m : List (α × β)) (k : α) : Option β :=
  match m.find? (fun p => p.1 == k) with
  | some p => some p.2
  | none => none

/-- Association-list update with JS `Map.set` semantics: overwrite in place
if the key is present, append otherwise. -/
def alistSet {α β : Type} [BEq α] (m : List (α × β)) (k : α) (v : β) :
    List (α × β) :=
  if m.any (fun p => p.1 == k) then
    m.map (fun p => if p.1 == k then (k, v) else p)
  else m ++ [(k, v)]

/-- JS `Set.add`. -/
def setAdd (s : List Nat) (x : Nat) : List Nat :=
  if s.contains x then s else s ++ [x]

/-! ## Registry state (module-level mutable state of dto.ts) -/

/-- The module-level mutable state of dto.ts: `schemaToClassMap`,
`classToSchemaMap` (WeakMaps keyed by instance identity),
`dtoClassRegistry` (a Set), `pendingDtoRegistrations` (an insertion-ordered
Map keyed by class), the `fieldResolutionScheduled` flag, a counter of
`process.nextTick` drain callbacks enqueued so far, and a source of fresh
identities for auto-generated DTO classes (`AutoGenerated_...`). -/
structure RegState where
  schemaToClassMap : List (Nat × Nat) := []
  classToSchemaMap : List (Nat × Nat) := []
  dtoClassRegistry : List Nat := []
  pendingDtoRegistrations : List (Nat × Nat) := []
  fieldResolutionScheduled : Bool := false
  scheduledDrainCount : Nat := 0
  nextAutoId : Nat := 0
deriving DecidableEq, Repr

/-- The empty registry created at module load. -/
def RegState.init : RegState := {}

/-- Lookup of the class registered for a schema instance
(`schemaToClassMap.get(schema)` / `getDtoFromSchema`). -/
def classFor (st : RegState) (sid : Nat) : Option Nat :=
  alistGet st.schemaToClassMap sid

/-- dto.ts `scheduleFieldResolution`: sets the coalescing flag and enqueues
one `process.nextTick` drain callback; a no-op when one is already
scheduled. -/
def scheduleFieldResolution (st : RegState) : RegState :=
  if st.fieldResolutionScheduled then st
  else { st with fieldResolutionScheduled := true,
                 scheduledDrainCount := st.scheduledDrainCount + 1 }

/-- The body of the `process.nextTick` callback in `scheduleFieldResolution`:
re-registers every pending (class, schema) pair in both maps, clears the
pending map and resets the coalescing flag. -/
def drainTick (st : RegState) : RegState :=
  let st1 := st.pendingDtoRegistrations.foldl
    (fun s p =>
      { s with schemaToClassMap := alistSet s.schemaToClassMap p.2 p.1,
               classToSchemaMap := alistSet s.classToSchemaMap p.1 p.2 }) st
  { st1 with pendingDtoRegistrations := [],
             fieldResolutionScheduled := false }

/-- dto.ts `preRegisterAllDtos`: batch registration of all pending pairs,
skipping any schema that already has a class in `schemaToClassMap`, then
clearing the pending map. -/
def preRegisterAllDtos (st : RegState) : RegState :=
  if st.pendingDtoRegistrations.isEmpty then st
  else
    let st1 := st.pendingDtoRegistrations.foldl
      (fun s p =>
        if (alistGet s.schemaToClassMap p.2).isSome then s
        else
          { s with schemaToClassMap := alistSet s.schemaToClassMap p.2 p.1,
                   classToSchemaMap := alistSet s.classToSchemaMap p.1 p.2 }) st
    { st1 with pendingDtoRegistrations := [] }

/-! ## Schema equivalence and the type mapper -/

/-- Lexicographic comparison of character lists by code point, matching the
JS default sort comparator on ASCII keys. -/
def charListLt : List Char → List Char → Bool
  | [], [] => false
  | [], _ :: _ => true
  | _ :: _, [] => false
  | a :: as, b :: bs =>
    Nat.blt a.toNat b.toNat || (a == b && charListLt as bs)

/-- String comparison used by the sorted-key comparisons. -/
def strLtB (a b : String) : Bool := charListLt a.data b.data

/-- Insertion of a string into a sorted list (lexicographic order, as JS
`Array.prototype.sort` on ASCII keys). -/
def insertSortedStr (x : String) : List String → List String
  | [] => [x]
  | y :: ys => if strLtB x y then x :: y :: ys else y :: insertSortedStr x ys

/-- Sorting a list of strings (JS `keys.sort()`). -/
def sortStrings (l : List String) : List String :=
  l.foldr insertSortedStr []

/-- dto.ts `schemasAreEquivalent`: unwrap one layer of
`_def.innerType || s`, then reference equality, then for two ZodObject
nodes comparison of the sorted field-name lists
(`JSON.stringify(keys1) === JSON.stringify(keys2)`). -/
def schemasAreEquivalent (env : ZEnv) (s1 s2 : Nat) : Bool :=
  let u1 := match (env s1).innerType with | some i => i | none => s1
  let u2 := match (env s2).innerType with | some i => i | none => s2
  if u1 == u2 then true
  else if (env u1).typeName == "ZodObject"
          && (env u2).typeName == "ZodObject" then
    sortStrings ((env u1).shape.map Prod.fst)
      == sortStrings ((env u2).shape.map Prod.fst)
  else false

/-- dto.ts `getOrCreateDtoClass`: (1) direct `schemaToClassMap` lookup;
(2) exact instance match in the pending registrations, registering both
directions; (3) first equivalent pending schema, registering the forward
direction only; (4) the filesystem-based auto-discovery step is modelled
as never succeeding (it depends on `require.resolve` against the host
filesystem); (5) auto-generation of a fresh `AutoGenerated_...` DTO class
via `createZodDto`, which records nothing in the registry maps.  The
`resolutionStats` counters are not modelled. -/
def getOrCreateDtoClass (env : ZEnv) (st : RegState) (sid : Nat)
    (isInputContext : Bool) : Nat × RegState :=
  match alistGet st.schemaToClassMap sid with
  | some c => (c, st)
  | none =>
    match st.pendingDtoRegistrations.find? (fun p => p.2 == sid) with
    | some p =>
      (p.1, { st with
                schemaToClassMap := alistSet st.schemaToClassMap sid p.1,
                classToSchemaMap := alistSet st.classToSchemaMap p.1 sid })
    | none =>
      match st.pendingDtoRegistrations.find?
          (fun p => schemasAreEquivalent env sid p.2) with
      | some p =>
        (p.1, { st with
                  schemaToClassMap := alistSet st.schemaToClassMap sid p.1 })
      | none =>
        (st.nextAutoId, { st with nextAutoId := st.nextAutoId + 1 })

/-- The target-type-system type computed for a field by the type mapper. -/
inductive GqlType where
  | gqlStringT
  | gqlNumberT
  | gqlBooleanT
  | gqlDateT
  | gqlList (t : GqlType)
  | classRef (clsId : Nat)
deriving DecidableEq, Repr

/-- JS truthiness of a computed field type: every value the mapper returns
(a constructor function, an array, or a class object) is truthy. -/
def gqlTruthy : GqlType → Bool
  | .gqlStringT => true
  | .gqlNumberT => true
  | .gqlBooleanT => true
  | .gqlDateT => true
  | .gqlList _ => true
  | .classRef _ => true

/-- dto.ts `isFieldNullable`. -/
def isFieldNullable (env : ZEnv) (sid : Nat) : Bool :=
  let tn := (env sid).typeName
  tn == "ZodOptional" || tn == "ZodNullable" || tn == "ZodDefault"

/-- dto.ts `getGraphQLFieldType`, fuelled (see the module comment): maps the
four primitive kinds, recurses through arrays (`[itemType]`) and the three
modifier wrappers (`_def.innerType || _def.type`), delegates ZodObject to
`getOrCreateDtoClass`, and returns the String fallback for ZodEnum
("Enums as strings by default") and for every unknown kind. -/
def getGraphQLFieldType (env : ZEnv) :
    Nat → RegState → Nat → Bool → GqlType × RegState
  | 0, st, _, _ => (GqlType.gqlStringT, st)
  | fuel + 1, st, sid, isInputContext =>
    if (env sid).typeName == "ZodString" then (GqlType.gqlStringT, st)
    else if (env sid).typeName == "ZodNumber" then (GqlType.gqlNumberT, st)
    else if (env sid).typeName == "ZodBoolean" then
      (GqlType.gqlBooleanT, st)
    else if (env sid).typeName == "ZodDate" then (GqlType.gqlDateT, st)
    else if (env sid).typeName == "ZodArray" then
      match (env sid).elemType with
      | some e =>
        let r := getGraphQLFieldType env fuel st e isInputContext
        if gqlTruthy r.1 then (GqlType.gqlList r.1, r.2)
        else (GqlType.gqlList GqlType.gqlStringT, r.2)
      | none => (GqlType.gqlList GqlType.gqlStringT, st)
    else if (env sid).typeName == "ZodObject" then
      let r := getOrCreateDtoClass env st sid isInputContext
      (GqlType.classRef r.1, r.2)
    else if (env sid).typeName == "ZodOptional"
            || (env sid).typeName == "ZodNullable"
            || (env sid).typeName == "ZodDefault" then
      match (env sid).innerType with
      | some i => getGraphQLFieldType env fuel st i isInputContext
      | none =>
        match (env sid).elemType with
        | some i => getGraphQLFieldType env fuel st i isInputContext
        | none => (GqlType.gqlStringT, st)
    else if (env sid).typeName == "ZodEnum" then (GqlType.gqlStringT, st)
    else (GqlType.gqlStringT, st)

/-! ## The decorator facade -/

/-- The class statics the core reads or writes: the `schema` static (own or
inherited, also covering the legacy `__zodSchema` slot) and the `isZodDto`
capability marker. -/
structure ClassStatics where
  isZodDto : Bool := false
  schema : Option Nat := none
deriving DecidableEq, Repr

/-- The statics of a class built by `createZodDto(schema)`:
`isZodDto = true` and the owning schema. -/
def createZodDtoStatics (sid : Nat) : ClassStatics :=
  { isZodDto := true, schema := some sid }

/-- One external GraphQL field-registration call
(`Field(typeResolver, fieldOptions)(constructor.prototype, fieldName)`)
applied to the decorated class, with the computed type, nullability and
description. -/
structure FieldReg where
  name : String
  nullable : Bool
  fieldType : GqlType
  description : Option String
deriving DecidableEq, Repr

/-- The per-field loop of the decorators: for each shape entry, compute the
field type (stateful), and when it is truthy emit a field registration with
nullability and description.  Returns the final state and the trace of
field registrations applied to the decorated class. -/
def mapFields (env : ZEnv) (fuel : Nat) (isInputContext : Bool) :
    List (String × Nat) → RegState → RegState × List FieldReg
  | [], st => (st, [])
  | (fname, fsid) :: rest, st =>
    let r := getGraphQLFieldType env fuel st fsid isInputContext
    if gqlTruthy r.1 then
      let reg : FieldReg :=
        { name := fname, nullable := isFieldNullable env fsid,
          fieldType := r.1, description := (env fsid).description }
      let rec' := mapFields env fuel isInputContext rest r.2
      (rec'.1, reg :: rec'.2)
    else
      mapFields env fuel isInputContext rest r.2

/-- The schema resolution step at the top of both decorators: an explicit
schema argument wins; otherwise the schema is extracted from the class
(the own/inherited `schema` static, also covering the legacy `__zodSchema`
slot and the prototype-chain lookups, which all read the same value). -/
def resolvedSchema (schemaArg : Option Nat) (cls : ClassStatics) :
    Option Nat :=
  match schemaArg with
  | some s => some s
  | none => cls.schema

/-- The try-block of both decorators: with the GraphQL host available and a
ZodObject schema resolved, run the per-field registration loop; with the
host unavailable (`require` throws, caught by the decorator) or no usable
schema, no field registration happens. -/
def decoratorFieldPhase (env : ZEnv) (fuel : Nat) (isInputContext : Bool)
    (hasGraphQL : Bool) (schema : Option Nat) (st : RegState) :
    RegState × List FieldReg :=
  if hasGraphQL then
    match schema with
    | some s =>
      if (env s).typeName == "ZodObject" then
        mapFields env fuel isInputContext (env s).shape st
      else (st, [])
    | none => (st, [])
  else (st, [])

/-- The shared body of the `ZodObjectType` / `ZodInputType` decorators
applied to a class (dto.ts lines 141-243 and 268-379): resolve the schema
(explicit argument, else the class's (possibly inherited) `schema` static);
inside the try block, when the GraphQL host is available, apply the
object/input-type decorator and the per-field registrations for a ZodObject
schema (when the host is unavailable the whole block is skipped by the
catch); then, whenever a schema was resolved, add the class to
`dtoClassRegistry`, record it in `pendingDtoRegistrations`, schedule the
deferred drain, and immediately set both instance maps.  The constructor is
returned unchanged: no statics are copied onto it. -/
def zodTypeDecoratorApply (env : ZEnv) (fuel : Nat) (isInputContext : Bool)
    (hasGraphQL : Bool) (clsId : Nat) (cls : ClassStatics)
    (schemaArg : Option Nat) (st : RegState) :
    RegState × ClassStatics × List FieldReg :=
  let schema : Option Nat := resolvedSchema schemaArg cls
  let mapped : RegState × List FieldReg :=
    decoratorFieldPhase env fuel isInputContext hasGraphQL schema st
  let st2 : RegState :=
    match schema with
    | some s =>
      let a := { mapped.1 with
                   dtoClassRegistry := setAdd mapped.1.dtoClassRegistry clsId,
                   pendingDtoRegistrations :=
                     alistSet mapped.1.pendingDtoRegistrations clsId s }
      let b := scheduleFieldResolution a
      { b with schemaToClassMap := alistSet b.schemaToClassMap s clsId,
               classToSchemaMap := alistSet b.classToSchemaMap clsId s }
    | none => mapped.1
  (st2, cls, mapped.2)

/-- The `@ZodObjectType` decorator (output context). -/
def ZodObjectTypeApply (env : ZEnv) (fuel : Nat) (hasGraphQL : Bool)
    (clsId : Nat) (cls : ClassStatics) (schemaArg : Option Nat)
    (st : RegState) : RegState × ClassStatics × List FieldReg :=
  zodTypeDecoratorApply env fuel false hasGraphQL clsId cls schemaArg st

/-- The `@ZodInputType` decorator (input context). -/
def ZodInputTypeApply (env : ZEnv) (fuel : Nat) (hasGraphQL : Bool)
    (clsId : Nat) (cls : ClassStatics) (schemaArg : Option Nat)
    (st : RegState) : RegState × ClassStatics × List FieldReg :=
  zodTypeDecoratorApply env fuel true hasGraphQL clsId cls schemaArg st

/-! ## Enum synthesizer

The implementation of `getOrCreateGraphQLEnum`, `handleUnionType` and
`clearEnumRegistry` is exported by packages/nestjs-zod/src/index.ts and
exercised by packages/nestjs-zod/src/enum.test.ts, but the dto.ts revision
holding it is not among the source files; the definitions below are
modelled from the spec (sections 4.3 and 3, EnumTypeCacheEntry), matching
the expectations recorded in enum.test.ts. -/

/-- Adjacent deduplication of a sorted list. -/
def dedupAdj : List String → List String
  | [] => []
  | [x] => [x]
  | x :: y :: r => if x == y then dedupAdj (y :: r) else x :: dedupAdj (y :: r)

/-- The sorted, deduplicated value set of an enum-like node. -/
def sortedValueSet (vs : List String) : List String :=
  dedupAdj (sortStrings vs)

/-- Modelled from the spec: the enum cache key, the sorted deduplicated
value set joined into one string. -/
def valueSetKey (vs : List String) : String :=
  String.intercalate "," (sortedValueSet vs)

/-- A synthesized target enum type: the member mapping in declaration
order, each member keyed by its stringified value, plus an object identity
so that cache hits returning the same object are expressible. -/
structure GqlEnum where
  objId : Nat
  members : List (String × LitVal)
deriving DecidableEq, Repr

/-- The state of the enum synthesizer: the cache keyed by value set, the
number of external `registerEnumType` invocations so far, and fresh object
identities. -/
structure EnumState where
  registry : List (String × GqlEnum) := []
  registerEnumCalls : Nat := 0
  nextEnumObjId : Nat := 0
deriving DecidableEq, Repr

/-- The empty enum registry (also the state after `clearEnumRegistry`). -/
def EnumState.init : EnumState := {}

/-- Modelled from the spec: `getOrCreateGraphQLEnum` (missing from the
source, specified in section 4.3 and enum.test.ts): build a mapping where
every value maps to itself, cache it under the sorted deduplicated value
set, invoke the external enum registration exactly on the first sight of a
cache key, and return the cached enum object on later equal keys.  The
registration call is counted even when the host throws (best-effort
swallowing only affects the error, not the returned mapping). -/
def getOrCreateGraphQLEnum (st : EnumState) (values : List LitVal) :
    GqlEnum × EnumState :=
  let key := valueSetKey (values.map litKey)
  match alistGet st.registry key with
  | some e => (e, st)
  | none =>
    let e : GqlEnum := { objId := st.nextEnumObjId,
                         members := values.map (fun v => (litKey v, v)) }
    (e, { registry := alistSet st.registry key e,
          registerEnumCalls := st.registerEnumCalls + 1,
          nextEnumObjId := st.nextEnumObjId + 1 })

/-- Modelled from the spec: synthesis for an Enum-kind node, whose
`_def.values` are strings, each mapping to itself. -/
def synthesizeEnumNode (env : ZEnv) (st : EnumState) (sid : Nat) :
    GqlEnum × EnumState :=
  getOrCreateGraphQLEnum st ((env sid).values.map LitVal.s)

/-- The literal values of a union's options: `some` exactly when every
option is a ZodLiteral carrying a value. -/
def literalsOf (env : ZEnv) (options : List Nat) : Option (List LitVal) :=
  options.mapM (fun o =>
    if (env o).typeName == "ZodLiteral" then (env o).litValue else none)

/-- Modelled from the spec: `handleUnionType` (missing from the source,
specified in section 4.3 and enum.test.ts): when every option is a literal
of one primitive kind, synthesize an enum from the literal values; when
options are not all literals, are literals of mixed kinds, or the option
list is empty, fall back to the string primitive. -/
def handleUnionType (env : ZEnv) (st : EnumState) (options : List Nat) :
    Sum GqlEnum Unit × EnumState :=
  match literalsOf env options with
  | some (l0 :: ls) =>
    if ls.all (fun l => litKindName l == litKindName l0) then
      let r := getOrCreateGraphQLEnum st (l0 :: ls)
      (Sum.inl r.1, r.2)
    else (Sum.inr (), st)
  | some [] => (Sum.inr (), st)
  | none => (Sum.inr (), st)

/-! ## createZodDto: input-type inference and strip -/

/-- Character-list prefix test (needle, text). -/
def beginsWith : List Char → List Char → Bool
  | [], _ => true
  | _ :: _, [] => false
  | a :: as, b :: bs => a == b && beginsWith as bs

/-- Character-list substring test, JS `String.prototype.includes`. -/
def containsSub (pat : List Char) : List Char → Bool
  | [] => beginsWith pat []
  | c :: rest => beginsWith pat (c :: rest) || containsSub pat rest

/-- The characters of a string lowercased, JS `toLowerCase` for ASCII. -/
def lowerChars (s : String) : List Char :=
  s.data.map Char.toLower

/-- The `graphql` option bag of `createZodDto`. -/
structure GraphqlOpts where
  name : Option String := none
  description : Option String := none
  autoFields : Option Bool := none
  isInput : Option Bool := none
deriving DecidableEq, Repr

/-- dto.ts `createZodDto` lines 489-501: the computed `isInputType` flag.
With GraphQL available and a graphql option present, an explicit
`isInput === true` wins; otherwise, when the option declares a name, the
flag is whether the lowercased name includes "input", "create" or
"update"; otherwise the flag stays false (output type). -/
def createZodDtoIsInputType (hasGraphQL : Bool)
    (graphqlOpt : Option GraphqlOpts) : Bool :=
  if hasGraphQL then
    match graphqlOpt with
    | some g =>
      if g.isInput == some true then true
      else
        match g.name with
        | some n =>
          containsSub "input".data (lowerChars n)
            || containsSub "create".data (lowerChars n)
            || containsSub "update".data (lowerChars n)
        | none => false
    | none => false
  else false

/-- Stated from the spec sentence, for comparison with the source: a class
is treated as an input type when the option's declared name contains
"input", "create" or "update" as a case-insensitive substring, and as an
output type otherwise. -/
def specInferredIsInput (g : GraphqlOpts) : Bool :=
  match g.name with
  | some n =>
    containsSub (lowerChars "input") (lowerChars n)
      || containsSub (lowerChars "create") (lowerChars n)
      || containsSub (lowerChars "update") (lowerChars n)
  | none => false

/-- The result of the external schema engine's `safeParse`
(`{success: true, data}` or `{success: false, error}`); the engine itself
is outside the core (spec section 1). -/
inductive SafeParseResult (V : Type) where
  | success (data : V)
  | failure (error : List String)
deriving DecidableEq, Repr

/-- dto.ts `strip` (lines 526-529): run the schema's `safeParse` on the
input and return the parsed data on success, the original input
otherwise. -/
def stripStatic {V : Type} (schemaSafeParse : V → SafeParseResult V)
    (input : V) : V :=
  match schemaSafeParse input with
  | .success data => data
  | .failure _ => input

/-! ## Concrete environments and scenario helpers -/

/-- A burst of synchronous decorator registrations: each item is a
(class, schema) pair decorated with an explicit schema argument within one
synchronous block of module evaluation. -/
def runBurst (env : ZEnv) (fuel : Nat) (hasGraphQL : Bool)
    (items : List (Nat × Nat)) (st : RegState) : RegState :=
  items.foldl
    (fun s it => (ZodObjectTypeApply env fuel hasGraphQL it.1 {} (some it.2) s).1)
    st

/-- A concrete environment: 0 is the Object-kind schema
`{id: number, name: string}` (children 1 and 2); 3 is the view
`S.describe("x")` of it (a new instance with the same shape and a
description, as `.describe` produces); 4 is a second, independently
produced describe-wrapped view; every other id is a string schema. -/
def envObjPair : ZEnv := fun i =>
  if i == 0 then
    { typeName := "ZodObject", shape := [("id", 1), ("name", 2)] }
  else if i == 1 then { typeName := "ZodNumber" }
  else if i == 3 then
    { typeName := "ZodObject", shape := [("id", 1), ("name", 2)],
      description := some "x" }
  else if i == 4 then
    { typeName := "ZodObject", shape := [("id", 1), ("name", 2)],
      description := some "x" }
  else { typeName := "ZodString" }

/-- The nested-schema environment for the forward-reference scenario:
schema `sa` is an Object whose field "address" is schema `sb`, itself an
Object with a string field; every other id is a string schema. -/
def envNested (sa sb : Nat) : ZEnv := fun i =>
  if i = sa then { typeName := "ZodObject", shape := [("address", sb)] }
  else if i = sb then
    { typeName := "ZodObject", shape := [("street", sa + sb + 1)] }
  else { typeName := "ZodString" }

/-- Two independently constructed Enum-kind nodes with the same value set
in different declaration orders. -/
def envEnumNodes : ZEnv := fun i =>
  if i == 0 then { typeName := "ZodEnum", values := ["A", "B"] }
  else if i == 1 then { typeName := "ZodEnum", values := ["B", "A"] }
  else { typeName := "ZodString" }

/-- Union options: 0 and 1 are string literals, 2 is a number literal,
everything else is a (non-literal) string schema. -/
def envUnionNodes : ZEnv := fun i =>
  if i == 0 then
    { typeName := "ZodLiteral", litValue := some (LitVal.s "small") }
  else if i == 1 then
    { typeName := "ZodLiteral", litValue := some (LitVal.s "large") }
  else if i == 2 then
    { typeName := "ZodLiteral", litValue := some (LitVal.n 1) }
  else { typeName := "ZodString" }

/-- A concrete external schema engine for exercising `strip`: accepts the
input 0 (parsing it to 7) and rejects everything else. -/
def stripExampleParser : Nat → SafeParseResult Nat :=
  fun v => if v = 0 then .success 7 else .failure ["invalid input"]

/-! ## Helper lemmas -/
theorem alistGet_nil {α β : Type} [BEq α] (k : α) :
    alistGet ([] : List (α × β)) k = none := rfl

theorem alistGet_cons {α β : Type} [BEq α] (a : α × β) (m : List (α × β))
    (k : α) :
    alistGet (a :: m) k = if a.1 == k then some a.2 else alistGet m k := by
  by_cases h : (a.1 == k) = true
  · simp [alistGet, List.find?, h]
  · simp only [Bool.not_eq_true] at h
    simp [alistGet, List.find?, h]

theorem alistGet_mapReplace_self {α β : Type} [BEq α] [LawfulBEq α]
    (m : List (α × β)) (k : α) (v : β)
    (hany : (m.any (fun p => p.1 == k)) = true) :
    alistGet (m.map (fun p => if p.1 == k then (k, v) else p)) k = some v := by
  induction m with
  | nil => simp at hany
  | cons a t ih =>
    by_cases ha : (a.1 == k) = true
    · simp [alistGet_cons, ha]
    · simp only [Bool.not_eq_true] at ha
      have hany' : (t.any (fun p => p.1 == k)) = true := by
        simp only [List.any_cons, ha, Bool.false_or] at hany
        exact hany
      simpa [alistGet_cons, ha] using ih hany'

theorem alistGet_mapReplace_ne {α β : Type} [BEq α] [LawfulBEq α]
    (m : List (α × β)) (k k' : α) (v : β) (h : ¬ k' = k) :
    alistGet (m.map (fun p => if p.1 == k then (k, v) else p)) k'
      = alistGet m k' := by
  have hkk' : (k == k') = false := by
    simp only [beq_eq_false_iff_ne, ne_eq]
    intro hc; exact h hc.symm
  induction m with
  | nil => rfl
  | cons a t ih =>
    by_cases ha : (a.1 == k) = true
    · have hak : a.1 = k := eq_of_beq ha
      simp [alistGet_cons, ha, hkk', hak, ih]
    · simp only [Bool.not_eq_true] at ha
      simp only [List.map_cons, ha, if_false, alistGet_cons]
      by_cases ha' : (a.1 == k') = true
      · simp [ha']
      · simp only [Bool.not_eq_true] at ha'
        simp [ha', ih]

theorem alistGet_append_single_self {α β : Type} [BEq α] [LawfulBEq α]
    (m : List (α × β)) (k : α) (v : β)
    (hany : ¬ (m.any (fun p => p.1 == k)) = true) :
    alistGet (m ++ [(k, v)]) k = some v := by
  induction m with
  | nil => simp [alistGet_cons]
  | cons a t ih =>
    have ha : (a.1 == k) = false := by
      by_contra hc
      simp only [Bool.not_eq_false] at hc
      simp [List.any_cons, hc] at hany
    have hany' : ¬ (t.any (fun p => p.1 == k)) = true := by
      intro hc
      simp [List.any_cons, hc] at hany
    simpa [alistGet_cons, ha] using ih hany'

theorem alistGet_append_single_ne {α β : Type} [BEq α] [LawfulBEq α]
    (m : List (α × β)) (k k' : α) (v : β) (h : ¬ k' = k) :
    alistGet (m ++ [(k, v)]) k' = alistGet m k' := by
  have hkk' : (k == k') = false := by
    simp only [beq_eq_false_iff_ne, ne_eq]
    intro hc; exact h hc.symm
  induction m with
  | nil => simp [alistGet_cons, hkk', alistGet_nil]
  | cons a t ih =>
    simp only [List.cons_append, alistGet_cons]
    by_cases ha : (a.1 == k') = true
    · simp [ha]
    · simp only [Bool.not_eq_true] at ha
      simp [ha, ih]

theorem alistGet_set_self {α β : Type} [BEq α] [LawfulBEq α]
    (m : List (α × β)) (k : α) (v : β) :
    alistGet (alistSet m k v) k = some v := by
  unfold alistSet
  by_cases hany : (m.any (fun p => p.1 == k)) = true
  · simpa [hany] using alistGet_mapReplace_self m k v hany
  · simpa [hany] using alistGet_append_single_self m k v hany

theorem alistGet_set_ne {α β : Type} [BEq α] [LawfulBEq α]
    (m : List (α × β)) (k k' : α) (v : β) (h : ¬ k' = k) :
    alistGet (alistSet m k v) k' = alistGet m k' := by
  unfold alistSet
  by_cases hany : (m.any (fun p => p.1 == k)) = true
  · simpa [hany] using alistGet_mapReplace_ne m k k' v h
  · simpa [hany] using alistGet_append_single_ne m k k' v h

theorem gqlTruthy_eq_true (t : GqlType) : gqlTruthy t = true := by
  cases t <;> rfl

theorem scheduleFieldResolution_s2c (st : RegState) :
    (scheduleFieldResolution st).schemaToClassMap = st.schemaToClassMap := by
  unfold scheduleFieldResolution; split <;> rfl

theorem scheduleFieldResolution_c2s (st : RegState) :
    (scheduleFieldResolution st).classToSchemaMap = st.classToSchemaMap := by
  unfold scheduleFieldResolution; split <;> rfl

theorem scheduleFieldResolution_pending (st : RegState) :
    (scheduleFieldResolution st).pendingDtoRegistrations
      = st.pendingDtoRegistrations := by
  unfold scheduleFieldResolution; split <;> rfl

theorem scheduleFieldResolution_flag (st : RegState) :
    (scheduleFieldResolution st).fieldResolutionScheduled = true := by
  unfold scheduleFieldResolution
  split
  · assumption
  · rfl

theorem scheduleFieldResolution_count_of_flag (st : RegState)
    (h : st.fieldResolutionScheduled = true) :
    (scheduleFieldResolution st).scheduledDrainCount
      = st.scheduledDrainCount := by
  unfold scheduleFieldResolution
  simp [h]

theorem scheduleFieldResolution_count_of_not_flag (st : RegState)
    (h : st.fieldResolutionScheduled = false) :
    (scheduleFieldResolution st).scheduledDrainCount
      = st.scheduledDrainCount + 1 := by
  unfold scheduleFieldResolution
  simp [h]

theorem getOrCreate_flagCount (env : ZEnv) (st : RegState) (sid : Nat)
    (c : Bool) :
    ((getOrCreateDtoClass env st sid c).2).fieldResolutionScheduled
        = st.fieldResolutionScheduled
      ∧ ((getOrCreateDtoClass env st sid c).2).scheduledDrainCount
        = st.scheduledDrainCount := by
  unfold getOrCreateDtoClass
  cases h1 : alistGet st.schemaToClassMap sid with
  | some c0 => simp
  | none =>
    cases h2 : st.pendingDtoRegistrations.find? (fun p => p.2 == sid) with
    | some p => simp
    | none =>
      cases h3 : st.pendingDtoRegistrations.find?
          (fun p => schemasAreEquivalent env sid p.2) with
      | some p => simp
      | none => simp

theorem getOrCreate_mapsFrame (env : ZEnv) (st : RegState) (sid : Nat)
    (c : Bool) (hp : st.pendingDtoRegistrations = []) :
    ((getOrCreateDtoClass env st sid c).2).schemaToClassMap
        = st.schemaToClassMap
      ∧ ((getOrCreateDtoClass env st sid c).2).classToSchemaMap
        = st.classToSchemaMap
      ∧ ((getOrCreateDtoClass env st sid c).2).pendingDtoRegistrations = []
      ∧ ((getOrCreateDtoClass env st sid c).2).dtoClassRegistry
        = st.dtoClassRegistry := by
  unfold getOrCreateDtoClass
  cases h1 : alistGet st.schemaToClassMap sid with
  | some c0 => simp [hp]
  | none => simp [hp]

theorem gft_flagCount (env : ZEnv) :
    ∀ (fuel : Nat) (st : RegState) (sid : Nat) (c : Bool),
    ((getGraphQLFieldType env fuel st sid c).2).fieldResolutionScheduled
        = st.fieldResolutionScheduled
      ∧ ((getGraphQLFieldType env fuel st sid c).2).scheduledDrainCount
        = st.scheduledDrainCount := by
  intro fuel
  induction fuel with
  | zero => intro st sid c; exact ⟨rfl, rfl⟩
  | succ n ih =>
    intro st sid c
    unfold getGraphQLFieldType
    split_ifs with h1 h2 h3 h4 h5 h6 h7 h8
    · exact ⟨rfl, rfl⟩
    · exact ⟨rfl, rfl⟩
    · exact ⟨rfl, rfl⟩
    · exact ⟨rfl, rfl⟩
    · cases he : (env sid).elemType with
      | some e => simpa [gqlTruthy_eq_true] using ih st e c
      | none => exact ⟨rfl, rfl⟩
    · simpa using getOrCreate_flagCount env st sid c
    · cases hi : (env sid).innerType with
      | some i => simpa using ih st i c
      | none =>
        cases he : (env sid).elemType with
        | some i => simpa using ih st i c
        | none => exact ⟨rfl, rfl⟩
    · exact ⟨rfl, rfl⟩
    · exact ⟨rfl, rfl⟩

theorem gft_mapsFrame (env : ZEnv) :
    ∀ (fuel : Nat) (st : RegState) (sid : Nat) (c : Bool),
    st.pendingDtoRegistrations = [] →
    ((getGraphQLFieldType env fuel st sid c).2).schemaToClassMap
        = st.schemaToClassMap
      ∧ ((getGraphQLFieldType env fuel st sid c).2).classToSchemaMap
        = st.classToSchemaMap
      ∧ ((getGraphQLFieldType env fuel st sid c).2).pendingDtoRegistrations
        = []
      ∧ ((getGraphQLFieldType env fuel st sid c).2).dtoClassRegistry
        = st.dtoClassRegistry := by
  intro fuel
  induction fuel with
  | zero => intro st sid c hp; exact ⟨rfl, rfl, hp, rfl⟩
  | succ n ih =>
    intro st sid c hp
    unfold getGraphQLFieldType
    split_ifs with h1 h2 h3 h4 h5 h6 h7 h8
    · exact ⟨rfl, rfl, hp, rfl⟩
    · exact ⟨rfl, rfl, hp, rfl⟩
    · exact ⟨rfl, rfl, hp, rfl⟩
    · exact ⟨rfl, rfl, hp, rfl⟩
    · cases he : (env sid).elemType with
      | some e => simpa [gqlTruthy_eq_true] using ih st e c hp
      | none => exact ⟨rfl, rfl, hp, rfl⟩
    · simpa using getOrCreate_mapsFrame env st sid c hp
    · cases hi : (env sid).innerType with
      | some i => simpa using ih st i c hp
      | none =>
        cases he : (env sid).elemType with
        | some i => simpa using ih st i c hp
        | none => exact ⟨rfl, rfl, hp, rfl⟩
    · exact ⟨rfl, rfl, hp, rfl⟩
    · exact ⟨rfl, rfl, hp, rfl⟩

theorem mapFields_flagCount (env : ZEnv) (fuel : Nat) (c : Bool) :
    ∀ (l : List (String × Nat)) (st : RegState),
    ((mapFields env fuel c l st).1).fieldResolutionScheduled
        = st.fieldResolutionScheduled
      ∧ ((mapFields env fuel c l st).1).scheduledDrainCount
        = st.scheduledDrainCount := by
  intro l
  induction l with
  | nil => intro st; exact ⟨rfl, rfl⟩
  | cons a rest ih =>
    intro st
    rcases a with ⟨fname, fsid⟩
    have hg := gft_flagCount env fuel st fsid c
    have hr := ih (getGraphQLFieldType env fuel st fsid c).2
    simp only [mapFields, gqlTruthy_eq_true, if_true]
    exact ⟨hr.1.trans hg.1, hr.2.trans hg.2⟩

theorem mapFields_mapsFrame (env : ZEnv) (fuel : Nat) (c : Bool) :
    ∀ (l : List (String × Nat)) (st : RegState),
    st.pendingDtoRegistrations = [] →
    ((mapFields env fuel c l st).1).schemaToClassMap = st.schemaToClassMap
      ∧ ((mapFields env fuel c l st).1).classToSchemaMap
        = st.classToSchemaMap
      ∧ ((mapFields env fuel c l st).1).pendingDtoRegistrations = []
      ∧ ((mapFields env fuel c l st).1).dtoClassRegistry
        = st.dtoClassRegistry := by
  intro l
  induction l with
  | nil => intro st hp; exact ⟨rfl, rfl, hp, rfl⟩
  | cons a rest ih =>
    intro st hp
    rcases a with ⟨fname, fsid⟩
    have hg := gft_mapsFrame env fuel st fsid c hp
    have hr := ih (getGraphQLFieldType env fuel st fsid c).2 hg.2.2.1
    simp only [mapFields, gqlTruthy_eq_true, if_true]
    exact ⟨hr.1.trans hg.1, hr.2.1.trans hg.2.1, hr.2.2.1,
           hr.2.2.2.trans hg.2.2.2⟩

theorem fieldPhase_flagCount (env : ZEnv) (fuel : Nat) (ictx hg : Bool)
    (schema : Option Nat) (st : RegState) :
    ((decoratorFieldPhase env fuel ictx hg schema st).1).fieldResolutionScheduled
        = st.fieldResolutionScheduled
      ∧ ((decoratorFieldPhase env fuel ictx hg schema st).1).scheduledDrainCount
        = st.scheduledDrainCount := by
  unfold decoratorFieldPhase
  cases hg with
  | false => exact ⟨rfl, rfl⟩
  | true =>
    cases schema with
    | none => exact ⟨rfl, rfl⟩
    | some s =>
      by_cases ht : ((env s).typeName == "ZodObject") = true
      · simpa [ht] using mapFields_flagCount env fuel ictx (env s).shape st
      · simp only [Bool.not_eq_true] at ht
        simp [ht]

theorem fieldPhase_mapsFrame (env : ZEnv) (fuel : Nat) (ictx hg : Bool)
    (schema : Option Nat) (st : RegState)
    (hp : st.pendingDtoRegistrations = []) :
    ((decoratorFieldPhase env fuel ictx hg schema st).1).schemaToClassMap
        = st.schemaToClassMap
      ∧ ((decoratorFieldPhase env fuel ictx hg schema st).1).classToSchemaMap
        = st.classToSchemaMap
      ∧ ((decoratorFieldPhase env fuel ictx hg schema st).1).pendingDtoRegistrations
        = []
      ∧ ((decoratorFieldPhase env fuel ictx hg schema st).1).dtoClassRegistry
        = st.dtoClassRegistry := by
  unfold decoratorFieldPhase
  cases hg with
  | false => exact ⟨rfl, rfl, hp, rfl⟩
  | true =>
    cases schema with
    | none => exact ⟨rfl, rfl, hp, rfl⟩
    | some s =>
      by_cases ht : ((env s).typeName == "ZodObject") = true
      · simpa [ht] using mapFields_mapsFrame env fuel ictx (env s).shape st hp
      · simp only [Bool.not_eq_true] at ht
        simp [ht, hp]

theorem decorator_classFor_self (env : ZEnv) (fuel : Nat) (ictx hg : Bool)
    (clsId : Nat) (cls : ClassStatics) (schemaArg : Option Nat)
    (st : RegState) (s : Nat)
    (h : resolvedSchema schemaArg cls = some s) :
    classFor
        ((zodTypeDecoratorApply env fuel ictx hg clsId cls schemaArg st).1) s
      = some clsId := by
  simp only [zodTypeDecoratorApply, h, classFor]
  exact alistGet_set_self _ _ _

theorem decorator_pending (env : ZEnv) (fuel : Nat) (ictx hg : Bool)
    (clsId : Nat) (cls : ClassStatics) (schemaArg : Option Nat)
    (st : RegState) (s : Nat)
    (h : resolvedSchema schemaArg cls = some s) :
    ((zodTypeDecoratorApply env fuel ictx hg clsId cls schemaArg st).1).pendingDtoRegistrations
      = alistSet
          ((decoratorFieldPhase env fuel ictx hg (some s) st).1).pendingDtoRegistrations
          clsId s := by
  simp only [zodTypeDecoratorApply, h, scheduleFieldResolution_pending]

theorem decorator_s2c (env : ZEnv) (fuel : Nat) (ictx hg : Bool)
    (clsId : Nat) (cls : ClassStatics) (schemaArg : Option Nat)
    (st : RegState) (s : Nat)
    (h : resolvedSchema schemaArg cls = some s) :
    ((zodTypeDecoratorApply env fuel ictx hg clsId cls schemaArg st).1).schemaToClassMap
      = alistSet
          ((decoratorFieldPhase env fuel ictx hg (some s) st).1).schemaToClassMap
          s clsId := by
  simp only [zodTypeDecoratorApply, h, scheduleFieldResolution_s2c]

theorem decorator_statics (env : ZEnv) (fuel : Nat) (ictx hg : Bool)
    (clsId : Nat) (cls : ClassStatics) (schemaArg : Option Nat)
    (st : RegState) :
    (zodTypeDecoratorApply env fuel ictx hg clsId cls schemaArg st).2.1
      = cls := rfl

theorem decorator_trace (env : ZEnv) (fuel : Nat) (ictx hg : Bool)
    (clsId : Nat) (cls : ClassStatics) (schemaArg : Option Nat)
    (st : RegState) :
    (zodTypeDecoratorApply env fuel ictx hg clsId cls schemaArg st).2.2
      = (decoratorFieldPhase env fuel ictx hg
          (resolvedSchema schemaArg cls) st).2 := rfl

theorem decorator_flag (env : ZEnv) (fuel : Nat) (ictx hg : Bool)
    (clsId : Nat) (cls : ClassStatics) (schemaArg : Option Nat)
    (st : RegState) (s : Nat)
    (h : resolvedSchema schemaArg cls = some s) :
    ((zodTypeDecoratorApply env fuel ictx hg clsId cls schemaArg st).1).fieldResolutionScheduled
      = true := by
  simp only [zodTypeDecoratorApply, h]
  exact scheduleFieldResolution_flag _

theorem decorator_count_step (env : ZEnv) (fuel : Nat) (ictx hg : Bool)
    (clsId : Nat) (cls : ClassStatics) (schemaArg : Option Nat)
    (st : RegState) (s : Nat)
    (h : resolvedSchema schemaArg cls = some s)
    (hf : st.fieldResolutionScheduled = false) :
    ((zodTypeDecoratorApply env fuel ictx hg clsId cls schemaArg st).1).scheduledDrainCount
      = st.scheduledDrainCount + 1 := by
  have hfp := fieldPhase_flagCount env fuel ictx hg (some s) st
  simp only [zodTypeDecoratorApply, h]
  rw [scheduleFieldResolution_count_of_not_flag]
  · simp [hfp.2]
  · simp [hfp.1, hf]

theorem decorator_count_noop (env : ZEnv) (fuel : Nat) (ictx hg : Bool)
    (clsId : Nat) (cls : ClassStatics) (schemaArg : Option Nat)
    (st : RegState) (s : Nat)
    (h : resolvedSchema schemaArg cls = some s)
    (hf : st.fieldResolutionScheduled = true) :
    ((zodTypeDecoratorApply env fuel ictx hg clsId cls schemaArg st).1).scheduledDrainCount
      = st.scheduledDrainCount := by
  have hfp := fieldPhase_flagCount env fuel ictx hg (some s) st
  simp only [zodTypeDecoratorApply, h]
  rw [scheduleFieldResolution_count_of_flag]
  · simp [hfp.2]
  · simp [hfp.1, hf]

theorem drainTick_flag (st : RegState) :
    (drainTick st).fieldResolutionScheduled = false := rfl

theorem preRegisterAllDtos_preserves (st : RegState) (s c : Nat)
    (h : classFor st s = some c) :
    classFor (preRegisterAllDtos st) s = some c := by
  unfold classFor at h ⊢
  unfold preRegisterAllDtos
  by_cases hemp : st.pendingDtoRegistrations.isEmpty = true
  · simpa [hemp] using h
  · simp only [hemp, if_false]
    have key : ∀ (l : List (Nat × Nat)) (st' : RegState),
        alistGet st'.schemaToClassMap s = some c →
        alistGet ((l.foldl
          (fun sacc p =>
            if (alistGet sacc.schemaToClassMap p.2).isSome then sacc
            else
              { sacc with
                  schemaToClassMap := alistSet sacc.schemaToClassMap p.2 p.1,
                  classToSchemaMap :=
                    alistSet sacc.classToSchemaMap p.1 p.2 }) st').schemaToClassMap)
          s = some c := by
      intro l
      induction l with
      | nil => intro st' h'; simpa using h'
      | cons p rest ih =>
        intro st' h'
        by_cases hq : (alistGet st'.schemaToClassMap p.2).isSome = true
        · simpa [hq] using ih st' h'
        · have hne : ¬ s = p.2 := by
            intro he
            rw [← he, h'] at hq
            simp at hq
          simp only [List.foldl_cons, hq, if_false]
          apply ih
          simpa [alistGet_set_ne _ _ _ _ hne] using h'
    simpa using key st.pendingDtoRegistrations st h

theorem alistSet_nil {α β : Type} [BEq α] (k : α) (v : β) :
    alistSet ([] : List (α × β)) k v = [(k, v)] := rfl

theorem litKey_map_s (vs : List String) :
    (vs.map LitVal.s).map litKey = vs := by
  induction vs with
  | nil => rfl
  | cons v rest ih => simp [litKey, ih]

theorem map_litKey_comp_s (vs : List String) :
    List.map (litKey ∘ LitVal.s) vs = vs := by
  induction vs with
  | nil => rfl
  | cons v rest ih => simp [litKey, ih, Function.comp]

/-- C9: with a graphql option present and no explicit isInput flag, the
computed input-type flag of createZodDto agrees with the spec's rule: the
class is an input type exactly when the declared graphql name contains
"input", "create" or "update" as a case-insensitive substring, and an
output type otherwise. -/
theorem c9_isInput_inference (g : GraphqlOpts) (h : g.isInput = none) :
    createZodDtoIsInputType true (some g) = specInferredIsInput g := by
  have h1 : lowerChars "input" = "input".data := by decide
  have h2 : lowerChars "create" = "create".data := by decide
  have h3 : lowerChars "update" = "update".data := by decide
  cases hn : g.name with
  | none => simp [createZodDtoIsInputType, specInferredIsInput, h, hn]
  | some n =>
    simp [createZodDtoIsInputType, specInferredIsInput, h, hn, h1, h2, h3]

/-- C9 witness: the name "CreateUserInput" with no explicit flag is
detected as an input type, agreeing with the spec rule. -/
theorem c9_isInput_inference_witness :
    ({ name := some "CreateUserInput" } : GraphqlOpts).isInput = none
      ∧ createZodDtoIsInputType true
          (some { name := some "CreateUserInput" })
        = specInferredIsInput { name := some "CreateUserInput" }
      ∧ createZodDtoIsInputType true
          (some { name := some "CreateUserInput" }) = true :=
  ⟨rfl, c9_isInput_inference { name := some "CreateUserInput" } rfl,
   by decide⟩

/-- C10: the static strip built by the DTO factory never raises: it
returns the schema-parsed data when the input passes validation and the
original input unchanged when validation fails. -/
theorem c10_strip_total (V : Type) (sp : V → SafeParseResult V) (v : V) :
    (∀ d, sp v = SafeParseResult.success d → stripStatic sp v = d)
      ∧ (∀ e, sp v = SafeParseResult.failure e → stripStatic sp v = v) := by
  constructor
  · intro d hd
    unfold stripStatic
    rw [hd]
  · intro e he
    unfold stripStatic
    rw [he]

/-- C10 witness: strip on an accepted input returns the parsed data, and
on a rejected input returns the input unchanged. -/
theorem c10_strip_total_witness :
    stripStatic stripExampleParser 0 = 7
      ∧ stripStatic stripExampleParser 5 = 5 :=
  ⟨(c10_strip_total Nat stripExampleParser 0).1 7 rfl,
   (c10_strip_total Nat stripExampleParser 5).2 ["invalid input"] rfl⟩

/-- C2: for two Enum-kind nodes with identical value sets (independent of
declaration order), synthesizing each returns the same cached target enum
object both times and the external enum registration is invoked exactly
once across both calls (starting from a registry with the value set not
yet cached). -/
theorem c2_enum_dedup (env : ZEnv) (st : EnumState) (s1 s2 : Nat)
    (h1 : (env s1).typeName = "ZodEnum")
    (h2 : (env s2).typeName = "ZodEnum")
    (hvals : sortedValueSet (env s1).values = sortedValueSet (env s2).values)
    (hfresh : alistGet st.registry (valueSetKey (env s1).values) = none) :
    (synthesizeEnumNode env st s1).1
        = (synthesizeEnumNode env (synthesizeEnumNode env st s1).2 s2).1
      ∧ (synthesizeEnumNode env
          (synthesizeEnumNode env st s1).2 s2).2.registerEnumCalls
        = st.registerEnumCalls + 1 := by
  have hkeys : valueSetKey (env s2).values = valueSetKey (env s1).values := by
    unfold valueSetKey
    rw [hvals]
  unfold synthesizeEnumNode getOrCreateGraphQLEnum
  simp only [List.map_map, map_litKey_comp_s, hkeys, hfresh]
  simp only [alistGet_set_self]
  exact ⟨trivial, trivial⟩

/-- C2 witness: the nodes with value lists ["A","B"] and ["B","A"] resolve
to the same synthesized enum object and register once. -/
theorem c2_enum_dedup_witness :
    (synthesizeEnumNode envEnumNodes EnumState.init 0).1
        = (synthesizeEnumNode envEnumNodes
            (synthesizeEnumNode envEnumNodes EnumState.init 0).2 1).1
      ∧ (synthesizeEnumNode envEnumNodes
          (synthesizeEnumNode envEnumNodes EnumState.init 0).2
          1).2.registerEnumCalls
        = EnumState.init.registerEnumCalls + 1 :=
  c2_enum_dedup envEnumNodes EnumState.init 0 1 rfl rfl (by decide) rfl

/-- C5: for a Union node, when every option is a literal of one primitive
kind the mapper synthesizes an enum whose members are exactly the literal
values (each appearing as both key and value); when the options are not
all literals, are literals of mixed kinds, or the option list is empty,
the mapper returns the string primitive fallback. -/
theorem c5_union_literals (env : ZEnv) (st : EnumState)
    (options : List Nat) :
    (∀ (l0 : LitVal) (ls : List LitVal),
       literalsOf env options = some (l0 :: ls) →
       (ls.all (fun l => litKindName l == litKindName l0)) = true →
       alistGet st.registry (valueSetKey ((l0 :: ls).map litKey)) = none →
       ∃ st', handleUnionType env st options
         = (Sum.inl { objId := st.nextEnumObjId,
                      members := (l0 :: ls).map (fun l => (litKey l, l)) },
            st'))
    ∧ (literalsOf env options = none →
       handleUnionType env st options = (Sum.inr (), st))
    ∧ (options = [] →
       handleUnionType env st options = (Sum.inr (), st))
    ∧ (∀ (l0 : LitVal) (ls : List LitVal),
       literalsOf env options = some (l0 :: ls) →
       (ls.all (fun l => litKindName l == litKindName l0)) = false →
       handleUnionType env st options = (Sum.inr (), st)) := by
  refine ⟨?_, ?_, ?_, ?_⟩
  · intro l0 ls hlit hall hfresh
    unfold handleUnionType getOrCreateGraphQLEnum
    rw [hlit]
    simp only [hall, if_true, hfresh]
    exact ⟨_, rfl⟩
  · intro hnone
    unfold handleUnionType
    rw [hnone]
  · intro hempty
    subst hempty
    rfl
  · intro l0 ls hlit hall
    unfold handleUnionType
    rw [hlit]
    simp only [hall]
    rfl

/-- C5 witness: a union of the string literals "small" and "large"
synthesizes the enum with exactly those members; a non-literal option, an
empty option list, and mixed literal kinds each fall back to the string
primitive. -/
theorem c5_union_literals_witness :
    (∃ st', handleUnionType envUnionNodes EnumState.init [0, 1]
       = (Sum.inl { objId := 0,
                    members := [("small", LitVal.s "small"),
                                ("large", LitVal.s "large")] }, st'))
    ∧ handleUnionType envUnionNodes EnumState.init [3]
        = (Sum.inr (), EnumState.init)
    ∧ handleUnionType envUnionNodes EnumState.init []
        = (Sum.inr (), EnumState.init)
    ∧ handleUnionType envUnionNodes EnumState.init [0, 2]
        = (Sum.inr (), EnumState.init) :=
  ⟨(c5_union_literals envUnionNodes EnumState.init [0, 1]).1
      (LitVal.s "small") [LitVal.s "large"] (by decide) (by decide) rfl,
   (c5_union_literals envUnionNodes EnumState.init [3]).2.1 (by decide),
   (c5_union_literals envUnionNodes EnumState.init []).2.2.1 rfl,
   (c5_union_literals envUnionNodes EnumState.init [0, 2]).2.2.2
      (LitVal.s "small") [LitVal.n 1] (by decide) (by decide)⟩

/-- C1 counterexample: registering class 1 for schema 0 and then class 2
for the same schema instance through the decorator leaves
`classFor(0) = 2`, not 1 — the second registration overwrites the first
instead of being ignored. -/
theorem c1_counterexample :
    classFor ((ZodObjectTypeApply envObjPair 2 false 2 {} (some 0)
        ((ZodObjectTypeApply envObjPair 2 false 1 {} (some 0)
          RegState.init).1)).1) 0 ≠ some 1
    ∧ classFor ((ZodObjectTypeApply envObjPair 2 false 2 {} (some 0)
        ((ZodObjectTypeApply envObjPair 2 false 1 {} (some 0)
          RegState.init).1)).1) 0 = some 2 := by
  decide

/-- C1 amended: decorator registration is last-write-wins — after
registering (C1, S) and then (C2, S), `classFor(S) = C2`; first-write-wins
holds only on the `preRegisterAllDtos` batch path, which leaves an
already-established mapping for a schema untouched. -/
theorem c1_amended_registration :
    (∀ (env : ZEnv) (fuel : Nat) (hg : Bool) (st : RegState)
       (c1 c2 s : Nat) (cs1 cs2 : ClassStatics),
       classFor ((ZodObjectTypeApply env fuel hg c2 cs2 (some s)
           ((ZodObjectTypeApply env fuel hg c1 cs1 (some s) st).1)).1) s
         = some c2)
    ∧ (∀ (st : RegState) (s c : Nat),
       classFor st s = some c →
       classFor (preRegisterAllDtos st) s = some c) := by
  constructor
  · intro env fuel hg st c1 c2 s cs1 cs2
    exact decorator_classFor_self env fuel false hg c2 cs2 (some s) _ s rfl
  · intro st s c h
    exact preRegisterAllDtos_preserves st s c h

/-- C1 amended witness: the overwrite at classes 1, 2 on schema 0, and
preservation of an existing mapping by preRegisterAllDtos. -/
theorem c1_amended_registration_witness :
    classFor ((ZodObjectTypeApply envObjPair 2 false 2 {} (some 0)
        ((ZodObjectTypeApply envObjPair 2 false 1 {} (some 0)
          RegState.init).1)).1) 0 = some 2
    ∧ classFor (preRegisterAllDtos
        { schemaToClassMap := [(0, 5)], classToSchemaMap := [(5, 0)],
          pendingDtoRegistrations := [(6, 0)] }) 0 = some 5 :=
  ⟨c1_amended_registration.1 envObjPair 2 false RegState.init 1 2 0 {} {},
   c1_amended_registration.2
     { schemaToClassMap := [(0, 5)], classToSchemaMap := [(5, 0)],
       pendingDtoRegistrations := [(6, 0)] } 0 5 (by decide)⟩

/-- C3 counterexample: decorating a bare class (schema
`{id: number, name: string}` passed explicitly, no GraphQL host) returns
the class without the `isZodDto` marker and without a `schema` static —
the facade does not attach the DTO-algebra statics. -/
theorem c3_counterexample :
    ((ZodObjectTypeApply envObjPair 2 false 7 {} (some 0)
        RegState.init).2.1).isZodDto = false
    ∧ ((ZodObjectTypeApply envObjPair 2 false 7 {} (some 0)
        RegState.init).2.1).schema = none := by
  decide

/-- C3 amended: the decorator never throws and always returns the class
with its statics exactly unchanged — so a class whose statics come from
the DTO factory keeps `schema` and `isZodDto`, while a bare class gains
nothing — and whenever a schema is resolved the registry mapping is still
recorded even with no GraphQL host. -/
theorem c3_amended_decoration (env : ZEnv) (fuel : Nat) (hg : Bool)
    (clsId : Nat) (cls : ClassStatics) (schemaArg : Option Nat)
    (st : RegState) (s : Nat) :
    (ZodObjectTypeApply env fuel hg clsId cls schemaArg st).2.1 = cls
    ∧ (resolvedSchema schemaArg cls = some s →
       classFor ((ZodObjectTypeApply env fuel hg clsId cls schemaArg st).1) s
         = some clsId) := by
  constructor
  · rfl
  · intro h
    exact decorator_classFor_self env fuel false hg clsId cls schemaArg st s h

/-- C3 amended witness: a class extending the DTO factory output for
schema 0 is decorated with no GraphQL host; its statics are unchanged
(`isZodDto` still true) and the registry records the class. -/
theorem c3_amended_decoration_witness :
    (ZodObjectTypeApply envObjPair 2 false 9 (createZodDtoStatics 0) none
        RegState.init).2.1 = createZodDtoStatics 0
    ∧ classFor ((ZodObjectTypeApply envObjPair 2 false 9
        (createZodDtoStatics 0) none RegState.init).1) 0 = some 9
    ∧ (createZodDtoStatics 0).isZodDto = true :=
  ⟨(c3_amended_decoration envObjPair 2 false 9 (createZodDtoStatics 0)
      none RegState.init 0).1,
   (c3_amended_decoration envObjPair 2 false 9 (createZodDtoStatics 0)
      none RegState.init 0).2 rfl,
   rfl⟩

/-- C7 counterexample: decorating class 10 with S (schema 0) and class 11
with the describe-wrapped view S.describe("x") (schema 3) produces two
independent mappings — `classFor(S) = 10` and `classFor(S') = 11` — even
though the two schemas are equivalent, not one shared class mapping. -/
theorem c7_counterexample :
    schemasAreEquivalent envObjPair 3 0 = true
    ∧ classFor ((ZodObjectTypeApply envObjPair 2 true 11 {} (some 3)
        ((ZodObjectTypeApply envObjPair 2 true 10 {} (some 0)
          RegState.init).1)).1) 0 = some 10
    ∧ classFor ((ZodObjectTypeApply envObjPair 2 true 11 {} (some 3)
        ((ZodObjectTypeApply envObjPair 2 true 10 {} (some 0)
          RegState.init).1)).1) 3 = some 11
    ∧ classFor ((ZodObjectTypeApply envObjPair 2 true 11 {} (some 3)
        ((ZodObjectTypeApply envObjPair 2 true 10 {} (some 0)
          RegState.init).1)).1) 0
      ≠ classFor ((ZodObjectTypeApply envObjPair 2 true 11 {} (some 3)
        ((ZodObjectTypeApply envObjPair 2 true 10 {} (some 0)
          RegState.init).1)).1) 3 := by
  decide

/-- C7 amended: the equivalence fallback produces a shared mapping only
during nested-field resolution: for a schema with no direct mapping and no
exact pending match, the first pending registration with an equivalent
schema resolves the lookup to that pending class and records the shared
mapping. -/
theorem c7_amended_equivalence (env : ZEnv) (st : RegState) (x : Nat)
    (ctx : Bool) (c p : Nat)
    (h1 : alistGet st.schemaToClassMap x = none)
    (h2 : st.pendingDtoRegistrations.find? (fun pr => pr.2 == x) = none)
    (h3 : st.pendingDtoRegistrations.find?
        (fun pr => schemasAreEquivalent env x pr.2) = some (c, p)) :
    getOrCreateDtoClass env st x ctx
      = (c, { st with schemaToClassMap := alistSet st.schemaToClassMap x c })
    ∧ classFor ((getOrCreateDtoClass env st x ctx).2) x = some c := by
  have hmain : getOrCreateDtoClass env st x ctx
      = (c, { st with
                schemaToClassMap := alistSet st.schemaToClassMap x c }) := by
    unfold getOrCreateDtoClass
    simp only [h1, h2, h3]
  refine ⟨hmain, ?_⟩
  rw [hmain]
  unfold classFor
  exact alistGet_set_self _ _ _

/-- C7 amended witness: with class 10 pending for schema 0 (before the
drain), resolving the fresh describe-wrapped instance 4 returns class 10
and records the shared mapping. -/
theorem c7_amended_equivalence_witness :
    (getOrCreateDtoClass envObjPair
        ((ZodObjectTypeApply envObjPair 2 true 10 {} (some 0)
          RegState.init).1) 4 false).1 = 10
    ∧ classFor ((getOrCreateDtoClass envObjPair
        ((ZodObjectTypeApply envObjPair 2 true 10 {} (some 0)
          RegState.init).1) 4 false).2) 4 = some 10 := by
  have h := c7_amended_equivalence envObjPair
    ((ZodObjectTypeApply envObjPair 2 true 10 {} (some 0) RegState.init).1)
    4 false 10 0 (by decide) (by decide) (by decide)
  exact ⟨by rw [h.1], h.2⟩

theorem mapFields_names (env : ZEnv) (fuel : Nat) (ictx : Bool) :
    ∀ (l : List (String × Nat)) (st : RegState),
    ((mapFields env fuel ictx l st).2).map FieldReg.name = l.map Prod.fst := by
  intro l
  induction l with
  | nil => intro st; rfl
  | cons a rest ih =>
    intro st
    rcases a with ⟨fname, fsid⟩
    simp only [mapFields, gqlTruthy_eq_true, if_true, List.map_cons]
    simp [ih]

/-- C6: decorating a class with an Object-kind schema of n fields, with
the GraphQL host available, applies the external field-registration call
exactly n times — once per field, in the schema's declared field order,
with no field skipped. -/
theorem c6_field_registrations (env : ZEnv) (fuel : Nat) (clsId : Nat)
    (cls : ClassStatics) (st : RegState) (s : Nat)
    (shape : List (String × Nat))
    (ht : (env s).typeName = "ZodObject")
    (hs : (env s).shape = shape) :
    ((ZodObjectTypeApply env fuel true clsId cls (some s) st).2.2).map
        FieldReg.name = shape.map Prod.fst
    ∧ ((ZodObjectTypeApply env fuel true clsId cls (some s) st).2.2).length
        = shape.length := by
  have hb : ((env s).typeName == "ZodObject") = true := by
    simp [ht]
  have htrace : (ZodObjectTypeApply env fuel true clsId cls (some s) st).2.2
      = (mapFields env fuel false (env s).shape st).2 := by
    simp only [ZodObjectTypeApply]
    rw [decorator_trace]
    simp only [resolvedSchema]
    unfold decoratorFieldPhase
    simp [hb]
  constructor
  · rw [htrace, hs]
    exact mapFields_names env fuel false shape st
  · rw [htrace, hs]
    have hnames := mapFields_names env fuel false shape st
    have := congrArg List.length hnames
    simpa using this

/-- C6 witness: decorating with the two-field schema
`{id: number, name: string}` registers exactly the fields "id" and "name"
in declared order. -/
theorem c6_field_registrations_witness :
    ((ZodObjectTypeApply envObjPair 2 true 12 {} (some 0)
        RegState.init).2.2).map FieldReg.name = ["id", "name"]
    ∧ ((ZodObjectTypeApply envObjPair 2 true 12 {} (some 0)
        RegState.init).2.2).length = 2 := by
  have h := c6_field_registrations envObjPair 2 12 {} RegState.init 0
    [("id", 1), ("name", 2)] rfl rfl
  exact ⟨h.1.trans (by decide), h.2.trans (by decide)⟩

theorem runBurst_stable (env : ZEnv) (fuel : Nat) (hg : Bool) :
    ∀ (items : List (Nat × Nat)) (st : RegState),
    st.fieldResolutionScheduled = true →
    (runBurst env fuel hg items st).scheduledDrainCount
        = st.scheduledDrainCount
    ∧ (runBurst env fuel hg items st).fieldResolutionScheduled = true := by
  intro items
  induction items with
  | nil => intro st h; exact ⟨rfl, h⟩
  | cons it rest ih =>
    intro st h
    have hstep := runBurst env fuel hg rest
    have hflag : ((ZodObjectTypeApply env fuel hg it.1 {} (some it.2)
        st).1).fieldResolutionScheduled = true :=
      decorator_flag env fuel false hg it.1 {} (some it.2) st it.2 rfl
    have hcount : ((ZodObjectTypeApply env fuel hg it.1 {} (some it.2)
        st).1).scheduledDrainCount = st.scheduledDrainCount :=
      decorator_count_noop env fuel false hg it.1 {} (some it.2) st it.2
        rfl h
    have hrest := ih ((ZodObjectTypeApply env fuel hg it.1 {} (some it.2)
        st).1) hflag
    unfold runBurst at hrest ⊢
    simp only [List.foldl_cons]
    exact ⟨hrest.1.trans hcount, hrest.2⟩

/-- C8: within one synchronous burst of decorator registrations starting
with no drain scheduled, exactly one deferred drain is scheduled — the
first registration schedules it and every later registration in the burst
is a scheduling no-op — and the drain callback itself resets the
coalescing flag. -/
theorem c8_single_drain (env : ZEnv) (fuel : Nat) (hg : Bool)
    (items : List (Nat × Nat)) (st : RegState)
    (hflag : st.fieldResolutionScheduled = false) (hne : items ≠ []) :
    (runBurst env fuel hg items st).scheduledDrainCount
        = st.scheduledDrainCount + 1
    ∧ (runBurst env fuel hg items st).fieldResolutionScheduled = true
    ∧ (drainTick (runBurst env fuel hg items st)).fieldResolutionScheduled
        = false := by
  cases items with
  | nil => exact absurd rfl hne
  | cons it rest =>
    have hflag1 : ((ZodObjectTypeApply env fuel hg it.1 {} (some it.2)
        st).1).fieldResolutionScheduled = true :=
      decorator_flag env fuel false hg it.1 {} (some it.2) st it.2 rfl
    have hcount1 : ((ZodObjectTypeApply env fuel hg it.1 {} (some it.2)
        st).1).scheduledDrainCount = st.scheduledDrainCount + 1 :=
      decorator_count_step env fuel false hg it.1 {} (some it.2) st it.2
        rfl hflag
    have hrest := runBurst_stable env fuel hg rest
      ((ZodObjectTypeApply env fuel hg it.1 {} (some it.2) st).1) hflag1
    have hfold : runBurst env fuel hg (it :: rest) st
        = runBurst env fuel hg rest
            ((ZodObjectTypeApply env fuel hg it.1 {} (some it.2) st).1) := by
      unfold runBurst
      simp only [List.foldl_cons]
    rw [hfold]
    exact ⟨hrest.1.trans hcount1, hrest.2, drainTick_flag _⟩

/-- C8 witness: a burst of three registrations from the initial state
schedules exactly one drain. -/
theorem c8_single_drain_witness :
    (runBurst envObjPair 2 true [(1, 0), (2, 3), (3, 0)]
        RegState.init).scheduledDrainCount
      = RegState.init.scheduledDrainCount + 1
    ∧ (runBurst envObjPair 2 true [(1, 0), (2, 3), (3, 0)]
        RegState.init).fieldResolutionScheduled = true
    ∧ (drainTick (runBurst envObjPair 2 true [(1, 0), (2, 3), (3, 0)]
        RegState.init)).fieldResolutionScheduled = false :=
  c8_single_drain envObjPair 2 true [(1, 0), (2, 3), (3, 0)] RegState.init
    rfl (by decide)

theorem gft_stringType (env : ZEnv) (sid : Nat)
    (h : (env sid).typeName = "ZodString") :
    ∀ (fuel : Nat) (st : RegState) (c : Bool),
    getGraphQLFieldType env fuel st sid c = (GqlType.gqlStringT, st) := by
  intro fuel st c
  cases fuel with
  | zero => rfl
  | succ n =>
    unfold getGraphQLFieldType
    simp [h]

theorem gft_objectType (env : ZEnv) (sid : Nat)
    (h : (env sid).typeName = "ZodObject") (fuel : Nat) (st : RegState)
    (c : Bool) :
    getGraphQLFieldType env (fuel + 1) st sid c
      = (GqlType.classRef (getOrCreateDtoClass env st sid c).1,
         (getOrCreateDtoClass env st sid c).2) := by
  unfold getGraphQLFieldType
  simp [h]

/-- C4: with class a decorated for schema sa (which nests schema sb as its
"address" field) before class b is decorated for sb, all in one burst:
after the deferred drain completes, resolving the GraphQL field type of
the nested field (the schema instance sb) yields class b, not an
auto-generated fallback class. -/
theorem c4_nested_forward_reference (a b sa sb fuel : Nat)
    (hab : a ≠ b) (hs : sa ≠ sb) :
    (getGraphQLFieldType (envNested sa sb) (fuel + 1)
        (drainTick ((ZodObjectTypeApply (envNested sa sb) fuel true b {}
            (some sb)
          ((ZodObjectTypeApply (envNested sa sb) fuel true a {} (some sa)
            RegState.init).1)).1))
        sb false).1
      = GqlType.classRef b := by
  have henvsb : envNested sa sb sb
      = { typeName := "ZodObject", shape := [("street", sa + sb + 1)] } := by
    unfold envNested
    rw [if_neg (Ne.symm hs), if_pos rfl]
  have henvx : envNested sa sb (sa + sb + 1)
      = { typeName := "ZodString" } := by
    unfold envNested
    rw [if_neg (by omega), if_neg (by omega)]
  -- the state after decorating class a for schema sa from the empty state
  set stA := (ZodObjectTypeApply (envNested sa sb) fuel true a {} (some sa)
    RegState.init).1 with hstA
  -- the field phase of a's decoration leaves the registry untouched
  -- (its only effect is auto-generating a fallback class id)
  have hfpA := fieldPhase_mapsFrame (envNested sa sb) fuel false true
    (some sa) RegState.init rfl
  have hpendA : stA.pendingDtoRegistrations = [(a, sa)] := by
    rw [hstA]
    simp only [ZodObjectTypeApply]
    rw [decorator_pending (envNested sa sb) fuel false true a {} (some sa)
      RegState.init sa rfl]
    rw [hfpA.2.2.1]
    rfl
  have hs2cA : stA.schemaToClassMap = [(sa, a)] := by
    rw [hstA]
    simp only [ZodObjectTypeApply]
    rw [decorator_s2c (envNested sa sb) fuel false true a {} (some sa)
      RegState.init sa rfl]
    rw [hfpA.1]
    rfl
  -- the state after decorating class b for schema sb
  set stB := (ZodObjectTypeApply (envNested sa sb) fuel true b {} (some sb)
    stA).1 with hstB
  -- b's field phase resolves only the string field, leaving stA unchanged
  have hfpB : (decoratorFieldPhase (envNested sa sb) fuel false true
      (some sb) stA).1 = stA := by
    unfold decoratorFieldPhase
    have hb : ((envNested sa sb sb).typeName == "ZodObject") = true := by
      simp [henvsb]
    rw [if_pos rfl]
    simp only [hb, if_true, henvsb]
    simp only [mapFields,
      gft_stringType (envNested sa sb) (sa + sb + 1) (by rw [henvx]) fuel
        stA false,
      gqlTruthy_eq_true, if_true]
    rfl
  have hpendB : stB.pendingDtoRegistrations = [(a, sa), (b, sb)] := by
    rw [hstB]
    simp only [ZodObjectTypeApply]
    rw [decorator_pending (envNested sa sb) fuel false true b {} (some sb)
      stA sb rfl]
    rw [hfpB, hpendA]
    unfold alistSet
    have : ((a, sa).1 == b) = false := by
      simp only [beq_eq_false_iff_ne, ne_eq]
      exact hab
    simp [this]
  -- after the drain, sb maps to b
  have hdrain : (drainTick stB).schemaToClassMap
      = alistSet (alistSet stB.schemaToClassMap sa a) sb b := by
    unfold drainTick
    rw [hpendB]
    rfl
  have hlookup : alistGet (drainTick stB).schemaToClassMap sb = some b := by
    rw [hdrain]
    exact alistGet_set_self _ _ _
  rw [gft_objectType (envNested sa sb) sb (by rw [henvsb]) fuel
    (drainTick stB) false]
  unfold getOrCreateDtoClass
  simp only [hlookup]

/-- C4 witness: classes 10 and 11, schemas 0 (nesting 1) and 1; after the
drain the nested field of schema 0 resolves to class 11. -/
theorem c4_nested_forward_reference_witness :
    (getGraphQLFieldType (envNested 0 1) 3
        (drainTick ((ZodObjectTypeApply (envNested 0 1) 2 true 11 {}
            (some 1)
          ((ZodObjectTypeApply (envNested 0 1) 2 true 10 {} (some 0)
            RegState.init).1)).1))
        1 false).1
      = GqlType.classRef 11 :=
  c4_nested_forward_reference 10 11 0 1 2 (by decide) (by decide)
